import Mathlib

/-!
Verification of the OWID grapher map scanner (files
`owid_map_scanner_mcp.py` and `owid_grapher_map_scanner.py`).

The scanner is embedded shallowly:

* JSON values are modelled by `JVal` (JSON numbers are modelled as
  integers; the configuration blobs the scanner inspects only carry
  integral times, booleans and strings, and non-integral numbers are
  rejected by the embedded JSON reader `jloadsC`).
* Python dicts are modelled as association lists (`PyDict`) with
  first-match lookup; Python truthiness is `truthy`.
* Text is processed as `List Char`; `splitOnChar` models
  `str.split(sep)` for a one-character separator and `pyStrip` models
  `str.strip()`.
* Network and filesystem effects are passed in explicitly: a page
  oracle for the Datasette query, a text oracle for per-slug CSV
  exports, and association lists for the on-disk CSV cache and the
  in-memory memoization cache.
-/

/-- A JSON value.  Numbers are integers: the embedded reader rejects
fractional and exponent forms, which the scanner's configs do not use. -/
inductive JVal where
  | null : JVal
  | bool (b : Bool) : JVal
  | num (n : Int) : JVal
  | str (s : String) : JVal
  | arr (elems : List JVal) : JVal
  | obj (fields : List (String × JVal)) : JVal

/-- Python truthiness (`bool(v)`) of a JSON value: `None`, `False`, `0`,
`""` and empty containers are falsy, everything else is truthy. -/
def truthy : JVal → Bool
  | JVal.null => false
  | JVal.bool b => b
  | JVal.num n => n != 0
  | JVal.str s => s != ""
  | JVal.arr l => !l.isEmpty
  | JVal.obj l => !l.isEmpty

/-- A Python dict with string keys, modelled as an association list.
Lookup takes the first matching binding; the scanner's dicts have
distinct keys, for which this agrees with Python dict semantics. -/
abbrev PyDict := List (String × JVal)

/-- First-match association-list lookup (generic in the value type). -/
def lookupKV {α : Type} : List (String × α) → String → Option α
  | [], _ => none
  | (k, v) :: rest, key => if k = key then some v else lookupKV rest key

/-- Python `d.get(key)`: the stored value, or `None` when absent. -/
def pyGet (d : PyDict) (key : String) : JVal :=
  (lookupKV d key).getD JVal.null

/-- Python `d.get(key, default)`. -/
def pyGetD (d : PyDict) (key : String) (default : JVal) : JVal :=
  (lookupKV d key).getD default

/-- Python `a or b`: `a` when truthy, else `b`. -/
def pyOrJ (a b : JVal) : JVal :=
  if truthy a then a else b

/-- Python `str()` of a JSON value, as far as the scanner needs it
(slugs and ids are strings or integers in the inventory rows). -/
def pyToStr : JVal → String
  | JVal.null => "None"
  | JVal.bool b => if b then "True" else "False"
  | JVal.num n => toString n
  | JVal.str s => s
  | JVal.arr _ => ""
  | JVal.obj _ => ""

/-- Structural equality of JSON values, modelling Python `==` on the
values the scanner compares (`None`/bools/ints/strings and containers;
Python's numeric cross-type equalities such as `True == 1` are not
modelled, the configs compared here do not mix those types). -/
def jvalEq : JVal → JVal → Bool
  | JVal.null, JVal.null => true
  | JVal.bool a, JVal.bool b => a == b
  | JVal.num a, JVal.num b => a == b
  | JVal.str a, JVal.str b => a == b
  | JVal.arr a, JVal.arr b => jvalEqList a b
  | JVal.obj a, JVal.obj b => jvalEqObj a b
  | _, _ => false
where
  jvalEqList : List JVal → List JVal → Bool
    | [], [] => true
    | a :: as, b :: bs => jvalEq a b && jvalEqList as bs
    | _, _ => false
  jvalEqObj : List (String × JVal) → List (String × JVal) → Bool
    | [], [] => true
    | (ka, va) :: as, (kb, vb) :: bs => ka == kb && jvalEq va vb && jvalEqObj as bs
    | _, _ => false

/-- Python `v is None`. -/
def jvalIsNull : JVal → Bool
  | JVal.null => true
  | _ => false

/-- The characters stripped by Python `str.strip()` (ASCII whitespace). -/
def isPySpace (c : Char) : Bool :=
  c = ' ' || c = '\t' || c = '\n' || c = '\r' || c = Char.ofNat 11 || c = Char.ofNat 12

/-- Drop `str.strip()` characters from the end of a character list. -/
def rdropSpace (s : List Char) : List Char :=
  ((s.reverse).dropWhile isPySpace).reverse

/-- Python `str.strip()` on a character list. -/
def pyStrip (s : List Char) : List Char :=
  (rdropSpace s).dropWhile isPySpace

/-- Python `s.split(sep)` for a one-character separator: always returns
at least one (possibly empty) piece, and `n` separators yield `n + 1`
pieces. -/
def splitOnChar (sep : Char) : List Char → List (List Char)
  | [] => [[]]
  | c :: rest =>
    let r := splitOnChar sep rest
    if c = sep then
      [] :: r
    else
      match r with
      | [] => [[c]]
      | h :: t => (c :: h) :: t

/-- Numeric value of a digit string (most significant digit first). -/
def digitsToNat (ds : List Char) : Nat :=
  ds.foldl (fun acc c => acc * 10 + (c.toNat - 48)) 0

/-- Model of Python `int(float(s))` on decimal literals: optional
surrounding whitespace, an optional sign, and `D+`, `D+.D*` or `.D+`
digits; the fractional part is truncated toward zero.  Inputs outside
this grammar (exponents, `inf`, `nan`, digit underscores) are mapped to
`none`, modelling the `ValueError` the scanner catches and skips. -/
def parseFloatTrunc (s : List Char) : Option Int :=
  let t := (rdropSpace s).dropWhile isPySpace
  let neg : Bool := t.head? = some '-'
  let t1 := if t.head? = some '-' || t.head? = some '+' then t.tail else t
  let ds := t1.takeWhile Char.isDigit
  let r1 := t1.dropWhile Char.isDigit
  let ok : Bool :=
    match r1 with
    | [] => !ds.isEmpty
    | '.' :: fr => (fr.takeWhile Char.isDigit == fr) && !(ds.isEmpty && fr.isEmpty)
    | _ => false
  if ok then
    let v : Int := (digitsToNat ds : Int)
    some (if neg then -v else v)
  else
    none

/-- `split_date` from `owid_map_scanner_mcp.py`, on the string case:
`y.split("-")[0]`, the piece before the first `-`.  (The source's
`isinstance(y, int)` branch only triggers on the indicator-metadata
fallback path, where the year ids are already integers.) -/
def split_date (y : List Char) : List Char :=
  match splitOnChar '-' y with
  | [] => []
  | h :: _ => h

/-- JSON whitespace, skipped between tokens by the reader. -/
def skipWsJ (s : List Char) : List Char :=
  s.dropWhile (fun c => c = ' ' || c = '\t' || c = '\n' || c = '\r')

/-- Translation of a JSON string escape character (`\uXXXX` escapes are
not modelled; the scanner's counterexample configs do not use them). -/
def jescape (e : Char) : Option Char :=
  if e = '"' then some '"'
  else if e = '\\' then some '\\'
  else if e = '/' then some '/'
  else if e = 'n' then some '\n'
  else if e = 't' then some '\t'
  else if e = 'r' then some '\r'
  else if e = 'b' then some (Char.ofNat 8)
  else if e = 'f' then some (Char.ofNat 12)
  else none

/-- Read a JSON string body (after the opening quote), returning its
characters and the remaining input. -/
def jparseStr : List Char → Option (List Char × List Char)
  | [] => none
  | '"' :: rest => some ([], rest)
  | '\\' :: e :: rest =>
    match jescape e, jparseStr rest with
    | some c, some (s, r) => some (c :: s, r)
    | _, _ => none
  | c :: rest =>
    match jparseStr rest with
    | some (s, r) => some (c :: s, r)
    | none => none

/-- Read a JSON number (integral only: fractional and exponent forms
yield `none`, see `JVal`). -/
def jparseNum (s : List Char) : Option (JVal × List Char) :=
  let signed : Bool × List Char :=
    match s with
    | '-' :: r => (true, r)
    | r => (false, r)
  let neg := signed.1
  let t := signed.2
  let ds := t.takeWhile Char.isDigit
  let rest := t.dropWhile Char.isDigit
  if ds.isEmpty then none
  else
    match rest with
    | '.' :: _ => none
    | 'e' :: _ => none
    | 'E' :: _ => none
    | _ =>
      let v : Int := (digitsToNat ds : Int)
      some (JVal.num (if neg then -v else v), rest)

mutual

/-- Read one JSON value; `fuel` strictly decreases on every nested
call, so any fuel larger than the input length is enough. -/
def jparseV : Nat → List Char → Option (JVal × List Char)
  | 0, _ => none
  | fuel + 1, s =>
    match skipWsJ s with
    | '"' :: r =>
      match jparseStr r with
      | some (cs, rest) => some (JVal.str (String.mk cs), rest)
      | none => none
    | '{' :: r =>
      match skipWsJ r with
      | '}' :: rest => some (JVal.obj [], rest)
      | r2 => jparseMembers fuel r2
    | '[' :: r =>
      match skipWsJ r with
      | ']' :: rest => some (JVal.arr [], rest)
      | r2 => jparseItems fuel r2
    | 't' :: 'r' :: 'u' :: 'e' :: r => some (JVal.bool true, r)
    | 'f' :: 'a' :: 'l' :: 's' :: 'e' :: r => some (JVal.bool false, r)
    | 'n' :: 'u' :: 'l' :: 'l' :: r => some (JVal.null, r)
    | s1 => jparseNum s1

/-- Read the members of a JSON object, positioned at a key. -/
def jparseMembers : Nat → List Char → Option (JVal × List Char)
  | 0, _ => none
  | fuel + 1, s =>
    match skipWsJ s with
    | '"' :: r =>
      match jparseStr r with
      | some (key, r1) =>
        match skipWsJ r1 with
        | ':' :: r2 =>
          match jparseV fuel r2 with
          | some (v, r3) =>
            match skipWsJ r3 with
            | '}' :: rest => some (JVal.obj [(String.mk key, v)], rest)
            | ',' :: r4 =>
              match jparseMembers fuel r4 with
              | some (JVal.obj fs, rest) => some (JVal.obj ((String.mk key, v) :: fs), rest)
              | _ => none
            | _ => none
          | none => none
        | _ => none
      | none => none
    | _ => none

/-- Read the items of a JSON array, positioned at a value. -/
def jparseItems : Nat → List Char → Option (JVal × List Char)
  | 0, _ => none
  | fuel + 1, s =>
    match jparseV fuel s with
    | some (v, r) =>
      match skipWsJ r with
      | ']' :: rest => some (JVal.arr [v], rest)
      | ',' :: r2 =>
        match jparseItems fuel r2 with
        | some (JVal.arr vs, rest) => some (JVal.arr (v :: vs), rest)
        | _ => none
      | _ => none
    | none => none

end

/-- Model of Python `json.loads` on a character list: one JSON value
followed only by whitespace; `Except.error ()` models a raised
`JSONDecodeError`. -/
def jloadsC (s : List Char) : Except Unit JVal :=
  match jparseV (s.length + 2) s with
  | some (v, rest) => if (skipWsJ rest).isEmpty then Except.ok v else Except.error ()
  | none => Except.error ()

/-- Python `s.replace('""', '"')`: collapse doubled quotes left to
right, as `parse_chart_config` does before its first parse attempt. -/
def replDQ : List Char → List Char
  | '"' :: '"' :: rest => '"' :: replDQ rest
  | c :: rest => c :: replDQ rest
  | [] => []

/-- `parse_chart_config` from `owid_map_scanner_mcp.py`: try the
doubled-quote-normalized text; on failure parse the original text with
no handler around it, so a second failure propagates as an exception
(`Except.error`). -/
def parse_chart_config (config_str : String) : Except Unit JVal :=
  match jloadsC (replDQ config_str.data) with
  | Except.ok v => Except.ok v
  | Except.error _ => jloadsC config_str.data

/-- Fields of a JSON object, for `config["map"]` access (the source
would raise `AttributeError` on a non-object `map` value; the scanner's
configs always carry an object there and no claim exercises that
corner). -/
def asObjD : JVal → PyDict
  | JVal.obj fields => fields
  | _ => []

/-- `parse_config_for_map_info` from `owid_map_scanner_mcp.py`: the
final contents of the `info` dict it builds and mutates. -/
def parse_config_for_map_info (config : PyDict) : PyDict :=
  let timelineMaxTime := pyOrJ (pyGet config "timelineMaxTime") (pyGet config "MaxTime")
  let timelineMinTime := pyOrJ (pyGet config "timelineMinTime") (pyGet config "MinTime")
  let tabIsMap : Bool :=
    match pyGet config "tab" with
    | JVal.str s => s == "map"
    | _ => false
  let has_map_tab := truthy (pyGet config "hasMapTab") || tabIsMap
  let inMap := (lookupKV config "map").isSome
  let map_config := asObjD (pyGet config "map")
  [("has_map_tab", JVal.bool has_map_tab),
   ("default_tab", if tabIsMap then JVal.str "map" else JVal.null),
   ("map_column_slug", if inMap then pyGet map_config "columnSlug" else JVal.null),
   ("map_time", if inMap then pyGet map_config "time" else JVal.null),
   ("has_timeline", JVal.bool (!(inMap && truthy (pyGet map_config "hideTimeline")))),
   ("entity_type", pyGet config "entityType"),
   ("max_time", timelineMaxTime),
   ("min_time", timelineMinTime)]

/-- Does a header cell name the temporal column?  Python:
`h.strip().lower() in ["year", "time", "date"]`. -/
def isYearHeader (h : List Char) : Bool :=
  let t := (pyStrip h).map Char.toLower
  t = "year".data || t = "time".data || t = "date".data

/-- The Python header scan `for i, h in enumerate(headers): if ...:
year_col_idx = i; break`, as an index-accumulating search. -/
def find_year_col (i : Nat) : List (List Char) → Option Nat
  | [] => none
  | h :: rest => if isYearHeader h then some i else find_year_col (i + 1) rest

/-- A Python `set` of years, modelled as a duplicate-free list in
first-insertion order (`len`, `max`, `min`, membership and emptiness
agree with the set; iteration order is unspecified in the source and
never observed). -/
def pySetAdd (years : List Int) (y : Int) : List Int :=
  if y ∈ years then years else years ++ [y]

/-- The data-line loop of `fetch_chart_data_years`: split each line on
commas, and when the line is long enough take the resolved column,
strip it, cut it at the first `-` (`split_date`) and convert it with
`int(float(...))`; lines whose conversion fails are skipped. -/
def yearsFold (year_col_idx : Nat) (data_lines : List (List Char)) : List Int :=
  data_lines.foldl
    (fun years line =>
      let values := splitOnChar ',' line
      if year_col_idx < values.length then
        match parseFloatTrunc (split_date (pyStrip (values.getD year_col_idx []))) with
        | some year => pySetAdd years year
        | none => years
      else years)
    []

/-- The parsing body of `fetch_chart_data_years` from
`owid_map_scanner_mcp.py`, applied to the resolved CSV text: strip the
text, split into lines, return the empty set when fewer than two lines
remain, locate the year column in the header (falling back to index 2),
and collect the distinct years of the data lines. -/
def extract_years_chars (text : List Char) : List Int :=
  match splitOnChar '\n' (pyStrip text) with
  | [] => []
  | [_] => []
  | line0 :: data_lines =>
    let headers := splitOnChar ',' line0
    let year_col_idx := (find_year_col 0 headers).getD 2
    yearsFold year_col_idx data_lines

/-- String-level wrapper for `extract_years_chars`. -/
def extract_years (response_text : String) : List Int :=
  extract_years_chars response_text.data

/-- The on-disk per-slug CSV cache, one file content per slug. -/
abbrev FileCache := List (String × String)

/-- `fetch_csv_data` from `owid_map_scanner_mcp.py`: return the cached
file content when present; otherwise ask the network (`net`, whose
`Except.error` models a caught request exception), write the body —
the empty string on failure — to the cache file, and return it.  The
result carries the text, the updated cache, and whether the network
was consulted. -/
def fetch_csv_data (net : String → Except Unit String) (files : FileCache) (slug : String) :
    String × FileCache × Bool :=
  match lookupKV files slug with
  | some content => (content, files, false)
  | none =>
    let text :=
      match net slug with
      | Except.ok t => t
      | Except.error _ => ""
    (text, (slug, text) :: files, true)

/-- The uncached body of `fetch_chart_data_years`: empty slug short
circuit, then extract years from the resolved CSV text (`csvText`
stands for `fetch_csv_data` with the run's cache and network). -/
def fetch_chart_data_years (csvText : String → String) (slug : String) : List Int :=
  if slug = "" then [] else extract_years (csvText slug)

/-- The in-memory memoization cache added by `functools.lru_cache`. -/
abbrev YearCache := List (String × List Int)

/-- `fetch_chart_data_years` with its `functools.lru_cache(maxsize=None)`
wrapper made explicit: a cache hit returns the stored set without
running the body; a miss runs the body once and stores the result.  The
Boolean reports whether the body (fetch plus parse) ran. -/
def fetch_chart_data_years_memo (csvText : String → String) (cache : YearCache) (slug : String) :
    List Int × YearCache × Bool :=
  match lookupKV cache slug with
  | some v => (v, cache, false)
  | none =>
    let v := fetch_chart_data_years csvText slug
    (v, (slug, v) :: cache, true)

/-- `check_single_year_map` from `owid_map_scanner_mcp.py`.  Note that
it reads `map_info.get("timelineMaxTime")` and `map_info.get("MaxTime")`
(and the `Min` twins) — keys `parse_config_for_map_info` never writes
(it writes `max_time`/`min_time`), so on the scanner's own `map_info`
dicts those lookups yield `None` and the equal-bounds branch is dead.
The pipeline never calls this function. -/
def check_single_year_map (fetchYears : String → List Int) (slug : String)
    (map_info : PyDict) : Option Bool × JVal :=
  if !truthy (pyGetD map_info "has_timeline" (JVal.bool true)) then
    (some true, JVal.str "-")
  else if truthy (pyGet map_info "map_time") then
    (some true, JVal.str "-")
  else
    let timelineMaxTime := pyOrJ (pyGet map_info "timelineMaxTime") (pyGet map_info "MaxTime")
    let timelineMinTime := pyOrJ (pyGet map_info "timelineMinTime") (pyGet map_info "MinTime")
    if !jvalIsNull timelineMaxTime && !jvalIsNull timelineMinTime
        && jvalEq timelineMaxTime timelineMinTime then
      (some true, JVal.str "-")
    else
      let years := fetchYears slug
      if years.length = 1 then (some true, JVal.num 1)
      else if 1 < years.length then (some false, JVal.num years.length)
      else (none, JVal.num 0)

/-- The base chart URL of the scanner. -/
def grapher_base_url : String := "https://ourworldindata.org/grapher"

/-- One output row of the scanner (the `result` dict built by
`generate_chart_result`). -/
structure ChartResult where
  chart_id : JVal
  slug : String
  title : JVal
  url : String
  has_map_tab : String
  max_time : JVal
  min_time : JVal
  default_tab : JVal
  is_published : JVal
  entity_type : JVal
  single_year_data : String
  len_years : Nat
  has_timeline : String

/-- Python `max(years) if years else None` on the resolved year list. -/
def listMaxJ (years : List Int) : JVal :=
  match years.max? with
  | some m => JVal.num m
  | none => JVal.null

/-- Python `min(years) if years else None` on the resolved year list. -/
def listMinJ (years : List Int) : JVal :=
  match years.min? with
  | some m => JVal.num m
  | none => JVal.null

/-- `generate_chart_result` from `owid_map_scanner_mcp.py`.
`fetchYears` stands for the memoized `fetch_chart_data_years` of the
run and `dims` for `try_with_dimensions` (whose network answer is part
of the oracle); `Except.error` models the uncaught exception raised
when the chart's config string fails both JSON parses or does not
decode to an object. -/
def generate_chart_result (fetchYears : String → List Int) (dims : JVal → List Int)
    (chart : PyDict) : Except Unit ChartResult :=
  let chart_id := pyGetD chart "id" (JVal.str "")
  let slugV := pyGetD chart "slug" (JVal.str "")
  let title := pyGetD chart "title" (JVal.str "")
  let is_published := pyGetD chart "isPublished" (JVal.str "")
  match pyGetD chart "config" (JVal.str "") with
  | JVal.str config_str =>
    match parse_chart_config config_str with
    | Except.error _ => Except.error ()
    | Except.ok config =>
      match config with
      | JVal.obj cfg =>
        let map_info := parse_config_for_map_info cfg
        let slug := pyToStr slugV
        let base_url := grapher_base_url ++ "/" ++ slug
        let has_map := truthy (pyGet map_info "has_map_tab")
        let map_url := if has_map then base_url ++ "?tab=map" else base_url
        let yearsPrim := fetchYears slug
        let years : List Int :=
          if yearsPrim.isEmpty then dims (pyGet cfg "dimensions")
          else yearsPrim
        let len_years := years.length
        let max_time := pyOrJ (pyGet map_info "max_time") (listMaxJ years)
        let min_time := pyOrJ (pyGet map_info "min_time") (listMinJ years)
        Except.ok
          { chart_id := chart_id
            slug := slug
            title := title
            url := map_url
            has_map_tab := if has_map then "Yes" else "No"
            max_time := max_time
            min_time := min_time
            default_tab := pyGetD map_info "default_tab" (JVal.str "")
            is_published := is_published
            entity_type := pyGetD map_info "entity_type" (JVal.str "")
            single_year_data :=
              if len_years = 1 then "Yes" else if 1 < len_years then "No" else "Unknown"
            len_years := len_years
            has_timeline := if truthy (pyGet map_info "has_timeline") then "Yes" else "No" }
      | _ => Except.error ()
  | _ => Except.error ()

/-- The `map_charts` filter of `save_results`. -/
def map_charts (results : List ChartResult) : List ChartResult :=
  results.filter (fun r => r.has_map_tab == "Yes")

/-- The publication test of `save_results`:
`r["is_published"] == "True" or r["is_published"] is True`. -/
def is_published_truthy (v : JVal) : Bool :=
  match v with
  | JVal.str s => s == "True"
  | JVal.bool b => b
  | _ => false

/-- The `published_map_charts` filter of `save_results`. -/
def published_map_charts (results : List ChartResult) : List ChartResult :=
  (map_charts results).filter (fun r => is_published_truthy r.is_published)

/-- The published-subset CSV written by `save_results`: `none` models
"file not created" (the `if published_map_charts:` guard), `some rows`
the created file's row list. -/
def published_subset_file (results : List ChartResult) : Option (List ChartResult) :=
  let rows := published_map_charts results
  if rows.isEmpty then none else some rows

/-- One parsed page of the Datasette response (`data["columns"]`,
`data["rows"]`). -/
structure PageData where
  columns : List String
  rows : List (List JVal)

/-- The pagination loop of `fetch_map_charts_from_sql`: fetch pages at
increasing offsets, stop on a failed request (keeping what was
accumulated), an empty page, or a page shorter than `page_size`;
convert each row with `dict(zip(columns, row))` where `columns` is
captured from the offset-0 page.  `fuel` bounds the number of
iterations; every terminating run is reproduced with any
sufficiently large fuel. -/
def fetch_pages_loop (getPage : Nat → Except Unit PageData) (page_size : Nat) :
    Nat → Nat → List String → List PyDict → List PyDict
  | 0, _, _, all_charts => all_charts
  | fuel + 1, offset, columns, all_charts =>
    match getPage offset with
    | Except.error _ => all_charts
    | Except.ok data =>
      if data.rows.isEmpty then all_charts
      else
        let columns1 := if offset = 0 then data.columns else columns
        let all_charts1 := all_charts ++ data.rows.map (fun row => columns1.zip row)
        if data.rows.length < page_size then all_charts1
        else fetch_pages_loop getPage page_size fuel (offset + page_size) columns1 all_charts1

/-- `fetch_map_charts_from_sql` from `owid_map_scanner_mcp.py` (its
accumulation loop; page size 1000 as in the source). -/
def fetch_map_charts_from_sql (getPage : Nat → Except Unit PageData) (fuel : Nat) :
    List PyDict :=
  fetch_pages_loop getPage 1000 fuel 0 [] []

/-- Chart row exercising the hidden-timeline short circuit with a
two-year export (C1's counterexample input). -/
def chartHiddenTimeline : PyDict :=
  [("id", JVal.str "1"), ("slug", JVal.str "s"), ("title", JVal.str "t"),
   ("isPublished", JVal.str "True"),
   ("config", JVal.str "\x7b\"map\": \x7b\"hideTimeline\": true\x7d\x7d")]

/-- Chart row whose config pins both explicit timeline bounds to the
falsy value `0` (C8's counterexample input). -/
def chartZeroBounds : PyDict :=
  [("id", JVal.str "2"), ("slug", JVal.str "s8"),
   ("config", JVal.str "\x7b\"timelineMaxTime\": 0, \"timelineMinTime\": 0\x7d")]

/-- The classification row the scanner produces for `chartZeroBounds`
with a `1990/2000` export. -/
def resultZeroBounds : ChartResult :=
  { chart_id := JVal.str "2"
    slug := "s8"
    title := JVal.str ""
    url := "https://ourworldindata.org/grapher/s8"
    has_map_tab := "No"
    max_time := JVal.num 2000
    min_time := JVal.num 1990
    default_tab := JVal.null
    is_published := JVal.str ""
    entity_type := JVal.null
    single_year_data := "No"
    len_years := 2
    has_timeline := "Yes" }

/-- A report row that is published in the spelling `"true"` and has a
map tab (C4's counterexample input). -/
def rowLowercaseTrue : ChartResult :=
  { chart_id := JVal.str "9"
    slug := "sl"
    title := JVal.str "t"
    url := "https://ourworldindata.org/grapher/sl?tab=map"
    has_map_tab := "Yes"
    max_time := JVal.null
    min_time := JVal.null
    default_tab := JVal.null
    is_published := JVal.str "true"
    entity_type := JVal.null
    single_year_data := "Yes"
    len_years := 1
    has_timeline := "No" }

/-- A network oracle on which every request fails. -/
def netAlwaysFails : String → Except Unit String := fun _ => Except.error ()

/-- A full Datasette page: exactly `page_size` rows. -/
def pageFull : PageData :=
  { columns := ["id"], rows := List.replicate 1000 [JVal.num 7] }

/-- A page oracle serving one full page at offset 0 and failing on
every later offset (C5's witness scenario). -/
def getPageOneFull : Nat → Except Unit PageData :=
  fun offset => if offset = 0 then Except.ok pageFull else Except.error ()

/-- Comma-join of header cells: the header line whose `split(",")` is
the cell list again (used to state the header-whitespace invariance). -/
def joinCells : List (List Char) → List Char
  | [] => []
  | [h] => h
  | h :: t => h ++ ',' :: joinCells t

/-- C2, counterexample.  The claim says the configuration parser never
raises and yields the all-absent default when both parses fail; on the
input `"xx"` (valid JSON for neither the normalized nor the original
text) `parse_chart_config` re-raises the second `json.loads` failure
(`Except.error ()`) instead of returning any default. -/
theorem c2_counterexample : parse_chart_config "xx" = Except.error () := rfl

/-- C2, amended.  The parser first parses the text with doubled quotes
collapsed and returns that result when it succeeds; when the normalized
parse fails it returns exactly the parse of the original, unmodified
text — so when that also fails, the exception propagates and no default
config is produced. -/
theorem c2_parse_retry :
    (∀ (s : String) (v : JVal), jloadsC (replDQ s.data) = Except.ok v →
        parse_chart_config s = Except.ok v)
    ∧ (∀ s : String, jloadsC (replDQ s.data) = Except.error () →
        parse_chart_config s = jloadsC s.data) := by
  constructor
  · intro s v h
    simp [parse_chart_config, h]
  · intro s h
    simp [parse_chart_config, h]

/-- C2, witness: on `{"a": ""}` the doubled-quote normalization turns
the valid text into an invalid one, and the retry on the original text
is what the parser returns. -/
theorem c2_witness :
    parse_chart_config "\x7b\"a\": \"\"\x7d" = jloadsC ("\x7b\"a\": \"\"\x7d".data) :=
  c2_parse_retry.2 "\x7b\"a\": \"\"\x7d" rfl

/-- C3: the parsed `has_map_tab` is true exactly when the explicit
`hasMapTab` flag is truthy or the default tab equals `"map"` (OR
semantics), and whenever the tab equals `"map"` the parser also sets
`default_tab` to `"map"`. -/
theorem c3_has_map_tab_or_rule (config : PyDict) :
    (truthy (pyGet (parse_config_for_map_info config) "has_map_tab") = true ↔
      (truthy (pyGet config "hasMapTab") = true ∨ pyGet config "tab" = JVal.str "map"))
    ∧ (pyGet config "tab" = JVal.str "map" →
        pyGet (parse_config_for_map_info config) "default_tab" = JVal.str "map") := by
  have hget : pyGet (parse_config_for_map_info config) "has_map_tab"
      = JVal.bool (truthy (pyGet config "hasMapTab")
          || (match pyGet config "tab" with | JVal.str s => s == "map" | _ => false)) := rfl
  have hdef : pyGet (parse_config_for_map_info config) "default_tab"
      = (if (match pyGet config "tab" with | JVal.str s => s == "map" | _ => false) = true
         then JVal.str "map" else JVal.null) := rfl
  have htab : ((match pyGet config "tab" with | JVal.str s => s == "map" | _ => false) = true)
      ↔ pyGet config "tab" = JVal.str "map" := by
    cases h : pyGet config "tab" <;> simp
  constructor
  · rw [hget]
    simp only [truthy, Bool.or_eq_true]
    rw [htab]
  · intro h
    rw [hdef, if_pos (htab.mpr h)]

/-- C3, witness: a config whose only map signal is `tab = "map"` gets
`has_map_tab` true and `default_tab = "map"`. -/
theorem c3_witness :
    truthy (pyGet (parse_config_for_map_info [("tab", JVal.str "map")]) "has_map_tab") = true
    ∧ pyGet (parse_config_for_map_info [("tab", JVal.str "map")]) "default_tab"
        = JVal.str "map" :=
  ⟨(c3_has_map_tab_or_rule [("tab", JVal.str "map")]).1.mpr (Or.inr rfl),
   (c3_has_map_tab_or_rule [("tab", JVal.str "map")]).2 rfl⟩

/-- C4, counterexample.  The claim admits the string `"true"` as a
truthy `is_published`; the report writer compares with `== "True"` and
`is True` only, so a row published as `"true"` with a map tab is
dropped and the subset file is not even created. -/
theorem c4_counterexample : published_subset_file [rowLowercaseTrue] = none := rfl

/-- C4, amended.  The published-subset file contains exactly the rows
of the full report whose `is_published` is the string `"True"` or the
boolean `True` (the lowercase string `"true"` is not recognized) and
whose `has_map_tab` is `"Yes"`, in the report's order; no file is
created when no row qualifies. -/
theorem c4_published_subset (results : List ChartResult) :
    published_subset_file results =
      (let rows := results.filter (fun r =>
        (match r.is_published with
         | JVal.str s => s == "True"
         | JVal.bool b => b
         | _ => false) && r.has_map_tab == "Yes")
       if rows.isEmpty then none else some rows) := by
  have hfilter : published_map_charts results = results.filter (fun r =>
      (match r.is_published with
       | JVal.str s => s == "True"
       | JVal.bool b => b
       | _ => false) && r.has_map_tab == "Yes") := by
    simp only [published_map_charts, map_charts, List.filter_filter, is_published_truthy]
  simp only [published_subset_file, hfilter]

/-- C6: within one run, a second memoized year-extraction call for the
same slug returns the identical year set and does not run the body
again (no second fetch, no second parse). -/
theorem c6_memo_idempotent (csvText : String → String) (cache : YearCache) (slug : String) :
    (fetch_chart_data_years_memo csvText cache slug).1
      = (fetch_chart_data_years_memo csvText
          (fetch_chart_data_years_memo csvText cache slug).2.1 slug).1
    ∧ (fetch_chart_data_years_memo csvText
        (fetch_chart_data_years_memo csvText cache slug).2.1 slug).2.2 = false := by
  cases h : lookupKV cache slug with
  | some v => simp [fetch_chart_data_years_memo, h]
  | none => simp [fetch_chart_data_years_memo, h, lookupKV]

/-- C7: the export text for a slug is resolved from the cache file when
one exists (no network call); otherwise it is fetched and the body —
the empty string when the request fails — is written to the cache file
and returned, and the failed-fetch slug's year set is empty. -/
theorem c7_cache_resolution (net : String → Except Unit String) (files : FileCache)
    (slug : String) :
    (∀ c, lookupKV files slug = some c →
        fetch_csv_data net files slug = (c, files, false))
    ∧ (∀ t, lookupKV files slug = none → net slug = Except.ok t →
        fetch_csv_data net files slug = (t, (slug, t) :: files, true))
    ∧ (lookupKV files slug = none → net slug = Except.error () →
        fetch_csv_data net files slug = ("", (slug, "") :: files, true)
          ∧ (slug ≠ "" →
              fetch_chart_data_years (fun sl => (fetch_csv_data net files sl).1) slug = [])) := by
  refine ⟨fun c hc => ?_, fun t hm hn => ?_, fun hm hn => ⟨?_, fun hs => ?_⟩⟩
  · simp [fetch_csv_data, hc]
  · simp [fetch_csv_data, hm, hn]
  · simp [fetch_csv_data, hm, hn]
  · simp [fetch_chart_data_years, hs, fetch_csv_data, hm, hn, extract_years,
      extract_years_chars, pyStrip, rdropSpace, splitOnChar]

/-- C7, witness: with an empty cache and a failing network, the fetch
records an empty cache file and the slug's year set is empty. -/
theorem c7_witness :
    fetch_csv_data netAlwaysFails [] "s" = ("", [("s", "")], true)
    ∧ fetch_chart_data_years (fun sl => (fetch_csv_data netAlwaysFails [] sl).1) "s" = [] :=
  ⟨((c7_cache_resolution netAlwaysFails [] "s").2.2 rfl rfl).1,
   ((c7_cache_resolution netAlwaysFails [] "s").2.2 rfl rfl).2 (by decide)⟩

/-- C1, counterexample.  The claim requires `single_year_data = "Yes"`
whenever the timeline is explicitly hidden; for `chartHiddenTimeline`
(config `map.hideTimeline = true`) with a two-year export the emitted
row has `has_timeline = "No"` but `single_year_data = "No"`: the
pipeline's `generate_chart_result` never consults the short-circuit
signals. -/
theorem c1_counterexample :
    (generate_chart_result (fun _ => [1990, 2000]) (fun _ => []) chartHiddenTimeline).map
        (fun r => (r.single_year_data, r.has_timeline, r.len_years))
      = Except.ok ("No", "No", 2) := rfl

/-- C1, amended.  The emitted `single_year_data` is a function of the
resolved year count alone — `"Yes"` iff exactly one year, `"No"` iff
more, `"Unknown"` iff none — regardless of the short-circuit signals.
Those signals live only in `check_single_year_map`, which no pipeline
stage calls: there the hidden-timeline and pinned-`map_time` signals do
return `True`, but the equal-bounds signal reads the keys
`timelineMaxTime`/`MaxTime` (and `Min` twins) that
`parse_config_for_map_info` never writes, so on the scanner's own
parsed info dicts it falls through to the year count as well. -/
theorem c1_single_year_from_count :
    (∀ (fetchYears : String → List Int) (dims : JVal → List Int) (chart : PyDict)
        (r : ChartResult), generate_chart_result fetchYears dims chart = Except.ok r →
        r.single_year_data =
          (if r.len_years = 1 then "Yes" else if 1 < r.len_years then "No" else "Unknown"))
    ∧ (∀ (fy : String → List Int) (slug : String) (info : PyDict),
        truthy (pyGetD info "has_timeline" (JVal.bool true)) = false →
        check_single_year_map fy slug info = (some true, JVal.str "-"))
    ∧ (∀ (fy : String → List Int) (slug : String) (info : PyDict),
        truthy (pyGetD info "has_timeline" (JVal.bool true)) = true →
        truthy (pyGet info "map_time") = true →
        check_single_year_map fy slug info = (some true, JVal.str "-"))
    ∧ (∀ (fy : String → List Int) (slug : String) (cfg : PyDict),
        truthy (pyGet (parse_config_for_map_info cfg) "has_timeline") = true →
        truthy (pyGet (parse_config_for_map_info cfg) "map_time") = false →
        check_single_year_map fy slug (parse_config_for_map_info cfg) =
          (if (fy slug).length = 1 then (some true, JVal.num 1)
           else if 1 < (fy slug).length then (some false, JVal.num ((fy slug).length : Int))
           else (none, JVal.num 0))) := by
  refine ⟨fun fy dims chart r h => ?_, fun fy slug info h => ?_,
    fun fy slug info h1 h2 => ?_, fun fy slug cfg h1 h2 => ?_⟩
  · cases hc : pyGetD chart "config" (JVal.str "") with
    | str cs =>
      simp only [generate_chart_result, hc] at h
      cases hp : parse_chart_config cs with
      | error e => simp [hp] at h
      | ok config =>
        cases config with
        | obj cfg =>
          simp only [hp, Except.ok.injEq] at h
          subst h
          rfl
        | null => simp [hp] at h
        | bool b => simp [hp] at h
        | num n => simp [hp] at h
        | str s2 => simp [hp] at h
        | arr l => simp [hp] at h
    | null => simp [generate_chart_result, hc] at h
    | bool b => simp [generate_chart_result, hc] at h
    | num n => simp [generate_chart_result, hc] at h
    | arr l => simp [generate_chart_result, hc] at h
    | obj o => simp [generate_chart_result, hc] at h
  · simp [check_single_year_map, h]
  · simp [check_single_year_map, h1, h2]
  · have e0 : pyGetD (parse_config_for_map_info cfg) "has_timeline" (JVal.bool true)
        = pyGet (parse_config_for_map_info cfg) "has_timeline" := rfl
    have e1 : pyGet (parse_config_for_map_info cfg) "timelineMaxTime" = JVal.null := rfl
    have e2 : pyGet (parse_config_for_map_info cfg) "MaxTime" = JVal.null := rfl
    have e3 : pyGet (parse_config_for_map_info cfg) "timelineMinTime" = JVal.null := rfl
    have e4 : pyGet (parse_config_for_map_info cfg) "MinTime" = JVal.null := rfl
    have e5 : pyOrJ JVal.null JVal.null = JVal.null := rfl
    rw [check_single_year_map, e0, e1, e2, e3, e4, e5, h1, h2]
    simp [jvalIsNull]

/-- C1, witness: on the scanner's own parsed info for a config with
equal explicit bounds (`timelineMaxTime = timelineMinTime = 5`), the
helper still counts years and answers `False` for a two-year set — the
equal-bounds short circuit cannot fire. -/
theorem c1_witness :
    check_single_year_map (fun _ => [1990, 2000]) "s"
        (parse_config_for_map_info
          [("timelineMaxTime", JVal.num 5), ("timelineMinTime", JVal.num 5)])
      = (some false, JVal.num 2) :=
  (c1_single_year_from_count.2.2.2 (fun _ => [1990, 2000]) "s"
    [("timelineMaxTime", JVal.num 5), ("timelineMinTime", JVal.num 5)] rfl rfl).trans rfl

/-- C8, counterexample.  The claim says a present config bound is
always preferred; `chartZeroBounds` pins `timelineMaxTime` and
`timelineMinTime` to the falsy value `0`, yet with a `1990/2000` export
the emitted bounds are `2000`/`1990`, derived from the year set via
Python `or`-truthiness. -/
theorem c8_counterexample :
    (generate_chart_result (fun _ => [1990, 2000]) (fun _ => []) chartZeroBounds).map
        (fun r => (r.max_time, r.min_time))
      = Except.ok (JVal.num 2000, JVal.num 1990) := rfl

/-- C8, amended.  The emitted `max_time`/`min_time` are the Python
`or`-chain of the top-level `timelineMaxTime`/`timelineMinTime` field,
the alternately named top-level `MaxTime`/`MinTime` field, and the
maximum/minimum of the resolved year list — so the config bound wins
only when it is truthy (a present but falsy bound such as `0` also
falls through to the year set), the nested `map.time` is never read,
and the field is `None` when no source provides a value. -/
theorem c8_time_bounds (fy : String → List Int) (dims : JVal → List Int) (chart : PyDict)
    (cs : String) (cfg : List (String × JVal)) (r : ChartResult)
    (hcs : pyGetD chart "config" (JVal.str "") = JVal.str cs)
    (hparse : parse_chart_config cs = Except.ok (JVal.obj cfg))
    (hr : generate_chart_result fy dims chart = Except.ok r) :
    r.max_time = pyOrJ (pyOrJ (pyGet cfg "timelineMaxTime") (pyGet cfg "MaxTime"))
        (listMaxJ (if (fy (pyToStr (pyGetD chart "slug" (JVal.str "")))).isEmpty
                   then dims (pyGet cfg "dimensions")
                   else fy (pyToStr (pyGetD chart "slug" (JVal.str "")))))
    ∧ r.min_time = pyOrJ (pyOrJ (pyGet cfg "timelineMinTime") (pyGet cfg "MinTime"))
        (listMinJ (if (fy (pyToStr (pyGetD chart "slug" (JVal.str "")))).isEmpty
                   then dims (pyGet cfg "dimensions")
                   else fy (pyToStr (pyGetD chart "slug" (JVal.str ""))))) := by
  simp only [generate_chart_result, hcs, hparse] at hr
  rw [Except.ok.injEq] at hr
  subst hr
  exact ⟨rfl, rfl⟩

/-- C8, witness: the bounds of the `chartZeroBounds` row agree with the
`or`-chain formula (and concretely equal `2000`/`1990`). -/
theorem c8_witness :
    resultZeroBounds.max_time = JVal.num 2000
    ∧ resultZeroBounds.min_time = JVal.num 1990 := by
  have h := c8_time_bounds (fun _ => [1990, 2000]) (fun _ => []) chartZeroBounds
    "\x7b\"timelineMaxTime\": 0, \"timelineMinTime\": 0\x7d"
    [("timelineMaxTime", JVal.num 0), ("timelineMinTime", JVal.num 0)]
    resultZeroBounds rfl rfl rfl
  exact ⟨h.1.trans rfl, h.2.trans rfl⟩

/-- Helper: `str.split(sep)` never yields an empty piece list. -/
theorem splitOnChar_ne_nil (sep : Char) (s : List Char) : splitOnChar sep s ≠ [] := by
  cases s with
  | nil => simp [splitOnChar]
  | cons c rest =>
    simp only [splitOnChar]
    split
    · simp
    · cases h : splitOnChar sep rest <;> simp

/-- Helper: the piece before the first `-` is the longest dash-free
prefix. -/
theorem split_date_eq_takeWhile (y : List Char) :
    split_date y = y.takeWhile (fun c => !(c = '-')) := by
  induction y with
  | nil => rfl
  | cons c rest ih =>
    by_cases hc : c = '-'
    · subst hc
      simp [split_date, splitOnChar]
    · cases hr : splitOnChar '-' rest with
      | nil => exact absurd hr (splitOnChar_ne_nil '-' rest)
      | cons h t =>
        have l1 : split_date (c :: rest) = c :: h := by
          simp only [split_date, splitOnChar, if_neg hc, hr]
        have l2 : h = rest.takeWhile (fun c => !(c = '-')) := by
          have hhead : split_date rest = h := by simp [split_date, hr]
          exact hhead.symm.trans ih
        rw [l1, l2, List.takeWhile_cons]
        simp [hc]

/-- Helper: `split_date` output never contains a dash. -/
theorem dash_not_mem_split_date (y : List Char) : '-' ∉ split_date y := by
  rw [split_date_eq_takeWhile]
  intro hmem
  have := List.mem_takeWhile_imp hmem
  simp at this

/-- Helper: characters surviving a two-sided whitespace strip come from
the original string. -/
theorem mem_of_mem_pyStripLike {a : Char} {s : List Char}
    (h : a ∈ (rdropSpace s).dropWhile isPySpace) : a ∈ s := by
  have h1 : a ∈ rdropSpace s := (List.dropWhile_sublist isPySpace).mem h
  unfold rdropSpace at h1
  rw [List.mem_reverse] at h1
  have h2 : a ∈ s.reverse := (List.dropWhile_sublist isPySpace).mem h1
  exact List.mem_reverse.mp h2

/-- Helper: `int(float(s))` on a dash-free token cannot be negative. -/
theorem parseFloatTrunc_nonneg (s : List Char) (hs : '-' ∉ s) (v : Int)
    (hv : parseFloatTrunc s = some v) : 0 ≤ v := by
  have hh : ((rdropSpace s).dropWhile isPySpace).head? ≠ some '-' := by
    intro h
    exact hs (mem_of_mem_pyStripLike (List.mem_of_mem_head? (by simp [h])))
  simp only [parseFloatTrunc, decide_eq_false hh, Bool.false_eq_true, if_false] at hv
  split at hv <;> split at hv <;>
    first
      | (rw [Option.some.injEq] at hv; subst hv; positivity)
      | simp at hv

/-- Helper: the data-line fold only ever inserts nonnegative years. -/
theorem yearsFold_nonneg_go (idx : Nat) (lines : List (List Char)) (acc : List Int)
    (hacc : ∀ a ∈ acc, 0 ≤ a) :
    ∀ y ∈ lines.foldl
      (fun years line =>
        let values := splitOnChar ',' line
        if idx < values.length then
          match parseFloatTrunc (split_date (pyStrip (values.getD idx []))) with
          | some year => pySetAdd years year
          | none => years
        else years) acc, 0 ≤ y := by
  induction lines generalizing acc with
  | nil => simpa using hacc
  | cons line rest ih =>
    rw [List.foldl_cons]
    apply ih
    intro a ha
    by_cases hlen : idx < (splitOnChar ',' line).length
    · simp only [hlen, if_true] at ha
      cases hp : parseFloatTrunc (split_date (pyStrip ((splitOnChar ',' line).getD idx []))) with
      | none => rw [hp] at ha; exact hacc a ha
      | some year =>
        rw [hp] at ha
        simp only [pySetAdd] at ha
        split at ha
        · exact hacc a ha
        · rw [List.mem_append] at ha
          rcases ha with ha | ha
          · exact hacc a ha
          · have hy : a = year := by simpa using ha
            subst hy
            exact parseFloatTrunc_nonneg _ (dash_not_mem_split_date _) a hp
    · simp only [hlen, if_false] at ha
      exact hacc a ha

/-- Helper: every extracted year is nonnegative. -/
theorem extract_years_chars_nonneg (text : List Char) :
    ∀ y ∈ extract_years_chars text, 0 ≤ y := by
  intro y hy
  unfold extract_years_chars at hy
  cases hsp : splitOnChar '\n' (pyStrip text) with
  | nil => rw [hsp] at hy; exact absurd hy (List.not_mem_nil y)
  | cons line0 rest =>
    cases rest with
    | nil => rw [hsp] at hy; exact absurd hy (List.not_mem_nil y)
    | cons l1 ls =>
      rw [hsp] at hy
      exact yearsFold_nonneg_go _ _ [] (by simp) y hy

/-- C10: a data cell starting with `-` is truncated by `split_date` to
the empty token, whose `int(float(...))` conversion fails (so the line
is skipped), and every year the primary extractor returns is
nonnegative. -/
theorem c10_years_nonneg :
    (∀ r : List Char, split_date ('-' :: r) = []
        ∧ parseFloatTrunc (split_date ('-' :: r)) = none)
    ∧ (∀ (t : String), ∀ y ∈ extract_years t, 0 ≤ y) := by
  constructor
  · intro r
    have h1 : split_date ('-' :: r) = [] := by
      simp [split_date, splitOnChar]
    exact ⟨h1, by rw [h1]; rfl⟩
  · intro t y hy
    exact extract_years_chars_nonneg t.data y hy

/-- C10, witness: in an export carrying the rows `1990` and `-500`, the
year `1990` is extracted and is nonnegative (the `-500` row is
skipped). -/
theorem c10_witness :
    (1990 : Int) ∈ extract_years "year,x\n1990,1\n-500,2" ∧ (0 : Int) ≤ 1990 :=
  ⟨by decide, c10_years_nonneg.2 "year,x\n1990,1\n-500,2" 1990 (by decide)⟩

/-- Helper: behavior of the pagination loop after `k` further full
pages starting at page index `j > 0` (so the offset-0 column capture is
behind us): a failed request returns exactly the accumulated records,
and a short or empty page appends its rows and stops. -/
theorem fetch_loop_scenario (getPage : Nat → Except Unit PageData) (g : Nat → PageData)
    (P : Nat) (hP : 0 < P) :
    ∀ (k j fuel : Nat) (cols : List String) (acc : List PyDict),
      0 < j → k < fuel →
      (∀ i, i < k → getPage (P * (j + i)) = Except.ok (g (j + i))
        ∧ (g (j + i)).rows.length = P) →
      ((getPage (P * (j + k)) = Except.error () →
          fetch_pages_loop getPage P fuel (P * j) cols acc =
            acc ++ (List.range k).flatMap
              (fun i => (g (j + i)).rows.map (fun row => cols.zip row)))
       ∧ (∀ d, getPage (P * (j + k)) = Except.ok d → d.rows.length < P →
          fetch_pages_loop getPage P fuel (P * j) cols acc =
            acc ++ (List.range k).flatMap
              (fun i => (g (j + i)).rows.map (fun row => cols.zip row))
              ++ d.rows.map (fun row => cols.zip row))) := by
  intro k
  induction k with
  | zero =>
    intro j fuel cols acc hj hfuel _hfull
    cases fuel with
    | zero => omega
    | succ f =>
      have hoff : ¬(P * j = 0) := by positivity
      constructor
      · intro herr
        simp only [Nat.add_zero] at herr
        simp [fetch_pages_loop, herr]
      · intro d hok hshort
        simp only [Nat.add_zero] at hok
        simp only [fetch_pages_loop, hok]
        by_cases hre : d.rows.isEmpty
        · have : d.rows = [] := by simpa [List.isEmpty_iff] using hre
          simp [hre, this]
        · simp [hre, hoff, if_neg hoff, hshort]
  | succ m ih =>
    intro j fuel cols acc hj hfuel hfull
    cases fuel with
    | zero => omega
    | succ f =>
      have h0 := hfull 0 (by omega)
      rw [Nat.add_zero] at h0
      have hoff : ¬(P * j = 0) := by positivity
      have hne : ¬(g j).rows.isEmpty := by
        rw [List.isEmpty_iff]
        intro hnil
        rw [hnil] at h0
        simp at h0
        omega
      have hnotshort : ¬((g j).rows.length < P) := by omega
      have hstep : fetch_pages_loop getPage P (f + 1) (P * j) cols acc =
          fetch_pages_loop getPage P f (P * j + P) cols
            (acc ++ (g j).rows.map (fun row => cols.zip row)) := by
        simp [fetch_pages_loop, h0.1, hne, hoff, hnotshort]
      have hoffs : P * j + P = P * (j + 1) := by ring
      rw [hoffs] at hstep
      have ihappl := ih (j + 1) f cols (acc ++ (g j).rows.map (fun row => cols.zip row))
        (by omega) (by omega)
        (fun i hi => by
          have := hfull (i + 1) (by omega)
          constructor
          · rw [show j + 1 + i = j + (i + 1) by ring]
            exact this.1
          · rw [show j + 1 + i = j + (i + 1) by ring]
            exact this.2)
      have hfm : ((List.range m).flatMap fun i =>
            List.map (fun row => cols.zip row) (g (j + 1 + i)).rows)
          = ((List.range m).flatMap fun i =>
            List.map (fun row => cols.zip row) (g (j + (i + 1))).rows) := by
        have hfun : (fun i => List.map (fun row => cols.zip row) (g (j + 1 + i)).rows)
            = (fun i => List.map (fun row => cols.zip row) (g (j + (i + 1))).rows) := by
          funext a
          rw [show j + 1 + a = j + (a + 1) by ring]
        rw [hfun]
      have hreidx : ∀ (tail : List PyDict),
          acc ++ (g j).rows.map (fun row => cols.zip row)
            ++ (List.range m).flatMap
              (fun i => (g (j + 1 + i)).rows.map (fun row => cols.zip row)) ++ tail
          = acc ++ (List.range (m + 1)).flatMap
              (fun i => (g (j + i)).rows.map (fun row => cols.zip row)) ++ tail := by
        intro tail
        rw [List.range_succ_eq_map]
        simp only [List.flatMap_cons, List.flatMap_map, Nat.succ_eq_add_one, Nat.add_zero,
          List.append_assoc]
        rw [hfm]
      constructor
      · intro herr
        rw [hstep]
        rw [show j + (m + 1) = j + 1 + m by ring] at herr
        have := (ihappl).1 herr
        rw [this]
        have h2 := hreidx []
        simpa using h2
      · intro d hok hshort
        rw [hstep]
        rw [show j + (m + 1) = j + 1 + m by ring] at hok
        have := (ihappl).2 d hok hshort
        rw [this]
        exact hreidx (d.rows.map (fun row => cols.zip row))

/-- C5: starting from offset 0, after `n` full pages (1000 rows each)
the inventory fetcher stops either on a failed request — returning
exactly the records accumulated from the pages before the failure, with
no retry — or on a page shorter than the page size (including an empty
page), which is appended before stopping; rows are converted with
`dict(zip(columns, row))` using the columns captured from the offset-0
page. -/
theorem c5_pagination (getPage : Nat → Except Unit PageData) (g : Nat → PageData)
    (n fuel : Nat) (hfuel : n < fuel)
    (hfull : ∀ i, i < n → getPage (1000 * i) = Except.ok (g i)
      ∧ (g i).rows.length = 1000) :
    (getPage (1000 * n) = Except.error () →
        fetch_map_charts_from_sql getPage fuel =
          (List.range n).flatMap
            (fun i => (g i).rows.map (fun row => ((g 0).columns).zip row)))
    ∧ (∀ d, getPage (1000 * n) = Except.ok d → d.rows.length < 1000 →
        fetch_map_charts_from_sql getPage fuel =
          (List.range n).flatMap
            (fun i => (g i).rows.map
              (fun row => (if n = 0 then d.columns else (g 0).columns).zip row))
          ++ d.rows.map
              (fun row => (if n = 0 then d.columns else (g 0).columns).zip row)) := by
  cases n with
  | zero =>
    cases fuel with
    | zero => omega
    | succ f =>
      constructor
      · intro herr
        rw [Nat.mul_zero] at herr
        simp [fetch_map_charts_from_sql, fetch_pages_loop, herr]
      · intro d hok hshort
        rw [Nat.mul_zero] at hok
        simp only [fetch_map_charts_from_sql, fetch_pages_loop, hok]
        by_cases hre : d.rows.isEmpty
        · have hnil : d.rows = [] := by simpa [List.isEmpty_iff] using hre
          simp [hre, hnil]
        · simp [hre, hshort]
  | succ m =>
    cases fuel with
    | zero => omega
    | succ f =>
      have h0 := hfull 0 (by omega)
      rw [Nat.mul_zero] at h0
      have hne : ¬(g 0).rows.isEmpty := by
        rw [List.isEmpty_iff]
        intro hnil
        rw [hnil] at h0
        simp at h0
      have hnotshort : ¬((g 0).rows.length < 1000) := by omega
      have hstep : fetch_map_charts_from_sql getPage (f + 1) =
          fetch_pages_loop getPage 1000 f 1000 (g 0).columns
            ((g 0).rows.map (fun row => ((g 0).columns).zip row)) := by
        simp [fetch_map_charts_from_sql, fetch_pages_loop, h0.1, hne, hnotshort]
      have hsc := fetch_loop_scenario getPage g 1000 (by norm_num) m 1 f (g 0).columns
        ((g 0).rows.map (fun row => ((g 0).columns).zip row))
        (by omega) (by omega)
        (fun i hi => by
          have := hfull (i + 1) (by omega)
          rw [show (1 : Nat) + i = i + 1 by ring]
          exact this)
      have hfm : ((List.range m).flatMap fun i =>
            List.map (fun row => ((g 0).columns).zip row) (g (1 + i)).rows)
          = ((List.range m).flatMap fun i =>
            List.map (fun row => ((g 0).columns).zip row) (g (i + 1)).rows) := by
        have hfun : (fun i => List.map (fun row => ((g 0).columns).zip row) (g (1 + i)).rows)
            = (fun i => List.map (fun row => ((g 0).columns).zip row) (g (i + 1)).rows) := by
          funext a
          rw [show (1 : Nat) + a = a + 1 by ring]
        rw [hfun]
      have hrange : ∀ (tail : List PyDict),
          (g 0).rows.map (fun row => ((g 0).columns).zip row)
            ++ (List.range m).flatMap
              (fun i => (g (1 + i)).rows.map (fun row => ((g 0).columns).zip row)) ++ tail
          = (List.range (m + 1)).flatMap
              (fun i => (g i).rows.map (fun row => ((g 0).columns).zip row)) ++ tail := by
        intro tail
        rw [List.range_succ_eq_map]
        simp only [List.flatMap_cons, List.flatMap_map, Nat.succ_eq_add_one, Nat.add_zero,
          List.append_assoc]
        rw [hfm]
      constructor
      · intro herr
        rw [show 1000 * (m + 1) = 1000 * (1 + m) by ring] at herr
        have hres := hsc.1 herr
        rw [hstep, hres]
        have := hrange []
        simpa using this
      · intro d hok hshort
        rw [show 1000 * (m + 1) = 1000 * (1 + m) by ring] at hok
        have hres := hsc.2 d hok hshort
        rw [hstep, hres]
        rw [if_neg (Nat.succ_ne_zero m)]
        exact hrange (d.rows.map (fun row => ((g 0).columns).zip row))

/-- C5, witness: one full page followed by a failing request yields
exactly that page's records. -/
theorem c5_witness :
    fetch_map_charts_from_sql getPageOneFull 2 =
      (List.range 1).flatMap
        (fun _ => pageFull.rows.map (fun row => (pageFull.columns).zip row)) :=
  (c5_pagination getPageOneFull (fun _ => pageFull) 1 2 (by omega)
    (fun i hi => by
      have h0 : i = 0 := by omega
      subst h0
      exact ⟨rfl, List.length_replicate 1000 [JVal.num 7]⟩)).1 rfl

/-- Helper: dropping a satisfied prefix skips past a fully satisfying
left part. -/
theorem dropWhile_append_of_all {p : Char → Bool} {a : List Char} (b : List Char)
    (ha : ∀ c ∈ a, p c = true) :
    (a ++ b).dropWhile p = b.dropWhile p := by
  induction a with
  | nil => rfl
  | cons c a ih =>
    have hc := ha c (List.mem_cons_self c a)
    simp only [List.cons_append, List.dropWhile_cons, hc, if_true]
    exact ih (fun x hx => ha x (List.mem_cons_of_mem c hx))

/-- Helper: when the left part survives `dropWhile`, the right part is
untouched. -/
theorem dropWhile_append_of_ne_nil {p : Char → Bool} {a : List Char} (b : List Char)
    (ha : a.dropWhile p ≠ []) :
    (a ++ b).dropWhile p = a.dropWhile p ++ b := by
  induction a with
  | nil => simp at ha
  | cons c a ih =>
    by_cases hc : p c
    · simp only [List.dropWhile_cons, hc, if_true] at ha
      simp only [List.cons_append, List.dropWhile_cons, hc, if_true]
      exact ih ha
    · have hcf : p c = false := by simpa using hc
      simp [List.cons_append, List.dropWhile_cons, hcf]

/-- Helper: right-stripping stays inside the right part while it is
nonempty after stripping. -/
theorem rdropSpace_append_of_ne_nil (a : List Char) {b : List Char}
    (hb : rdropSpace b ≠ []) :
    rdropSpace (a ++ b) = a ++ rdropSpace b := by
  unfold rdropSpace at hb ⊢
  rw [List.reverse_append]
  rw [dropWhile_append_of_ne_nil a.reverse (by
    intro hnil
    rw [hnil] at hb
    simp at hb)]
  simp

/-- Helper: right-stripping removes an all-whitespace suffix. -/
theorem rdropSpace_append_of_all (a : List Char) {w : List Char}
    (hw : ∀ c ∈ w, isPySpace c = true) :
    rdropSpace (a ++ w) = rdropSpace a := by
  unfold rdropSpace
  rw [List.reverse_append]
  rw [dropWhile_append_of_all a.reverse (fun c hc => hw c (List.mem_reverse.mp hc))]

/-- Helper: right-stripping empties a list exactly when it is all
whitespace. -/
theorem rdropSpace_eq_nil_iff {x : List Char} :
    rdropSpace x = [] ↔ ∀ c ∈ x, isPySpace c = true := by
  unfold rdropSpace
  rw [List.reverse_eq_nil_iff, List.dropWhile_eq_nil_iff]
  constructor
  · intro h c hc
    exact h c (List.mem_reverse.mpr hc)
  · intro h c hc
    exact h c (List.mem_reverse.mp hc)

/-- Helper: `str.strip()` ignores whitespace padding on either side. -/
theorem pyStrip_pad {w1 x w2 : List Char}
    (hw1 : ∀ c ∈ w1, isPySpace c = true) (hw2 : ∀ c ∈ w2, isPySpace c = true) :
    pyStrip (w1 ++ x ++ w2) = pyStrip x := by
  unfold pyStrip
  rw [List.append_assoc] at *
  rw [show w1 ++ (x ++ w2) = (w1 ++ x) ++ w2 from (List.append_assoc w1 x w2).symm]
  rw [rdropSpace_append_of_all (w1 ++ x) hw2]
  by_cases hx : rdropSpace x = []
  · have hxall : ∀ c ∈ x, isPySpace c = true := rdropSpace_eq_nil_iff.mp hx
    have : rdropSpace (w1 ++ x) = [] := by
      rw [rdropSpace_eq_nil_iff]
      intro c hc
      rcases List.mem_append.mp hc with h | h
      · exact hw1 c h
      · exact hxall c h
    rw [this, hx]
  · rw [rdropSpace_append_of_ne_nil w1 hx]
    rw [dropWhile_append_of_all (rdropSpace x) hw1]

/-- Helper: `str.strip()` after a left strip equals `str.strip()`. -/
theorem pyStrip_dropWhile (x : List Char) :
    pyStrip (x.dropWhile isPySpace) = pyStrip x := by
  conv_rhs => rw [show x = x.takeWhile isPySpace ++ x.dropWhile isPySpace from
    (List.takeWhile_append_dropWhile isPySpace x).symm]
  have h := @pyStrip_pad (x.takeWhile isPySpace) (x.dropWhile isPySpace) []
    (fun c hc => List.mem_takeWhile_imp hc) (by intro c hc; exact absurd hc (List.not_mem_nil c))
  simpa using h.symm

/-- Helper: splitting a separator-free string yields one piece. -/
theorem splitOnChar_no_sep (sep : Char) (x : List Char) (hx : ∀ c ∈ x, c ≠ sep) :
    splitOnChar sep x = [x] := by
  induction x with
  | nil => rfl
  | cons c rest ih =>
    have hc : c ≠ sep := hx c (List.mem_cons_self c rest)
    have hr := ih (fun a ha => hx a (List.mem_cons_of_mem c ha))
    simp only [splitOnChar, if_neg hc, hr]

/-- Helper: splitting at the first separator detaches the prefix. -/
theorem splitOnChar_append_sep (sep : Char) (x y : List Char) (hx : ∀ c ∈ x, c ≠ sep) :
    splitOnChar sep (x ++ sep :: y) = x :: splitOnChar sep y := by
  induction x with
  | nil => simp [splitOnChar]
  | cons c rest ih =>
    have hc : c ≠ sep := hx c (List.mem_cons_self c rest)
    have hr := ih (fun a ha => hx a (List.mem_cons_of_mem c ha))
    show splitOnChar sep (c :: (rest ++ sep :: y)) = (c :: rest) :: splitOnChar sep y
    simp only [splitOnChar, if_neg hc, hr]

/-- Helper: splitting a comma-join of comma-free cells restores the
cells. -/
theorem splitOnChar_joinCells (h : List Char) (t : List (List Char))
    (hcells : ∀ cell ∈ h :: t, ∀ c ∈ cell, c ≠ ',') :
    splitOnChar ',' (joinCells (h :: t)) = h :: t := by
  induction t generalizing h with
  | nil => exact splitOnChar_no_sep ',' h (hcells h (List.mem_cons_self h []))
  | cons t1 ts ih =>
    have hj : joinCells (h :: t1 :: ts) = h ++ ',' :: joinCells (t1 :: ts) := rfl
    rw [hj, splitOnChar_append_sep ',' h (joinCells (t1 :: ts))
      (hcells h (List.mem_cons_self h (t1 :: ts)))]
    rw [ih t1 (fun cell hcell => hcells cell (List.mem_cons_of_mem h hcell))]

/-- Helper: a character of a comma-join is a comma or lies in a cell. -/
theorem mem_joinCells {c : Char} {hs : List (List Char)} (h : c ∈ joinCells hs) :
    c = ',' ∨ ∃ x ∈ hs, c ∈ x := by
  induction hs with
  | nil => exact absurd h (List.not_mem_nil c)
  | cons h0 t ih =>
    cases t with
    | nil =>
      right
      exact ⟨h0, List.mem_cons_self h0 [], h⟩
    | cons t1 ts =>
      have hj : joinCells (h0 :: t1 :: ts) = h0 ++ ',' :: joinCells (t1 :: ts) := rfl
      rw [hj] at h
      rcases List.mem_append.mp h with hmem | hmem
      · right
        exact ⟨h0, List.mem_cons_self h0 (t1 :: ts), hmem⟩
      · rcases List.mem_cons.mp hmem with hmem | hmem
        · left
          exact hmem
        · rcases ih hmem with hmem | hex
          · left
            exact hmem
          · obtain ⟨x, hx, hcx⟩ := hex
            right
            exact ⟨x, List.mem_cons_of_mem h0 hx, hcx⟩

/-- Helper: cell characters appear in the comma-join. -/
theorem mem_joinCells_of_mem {c : Char} {x : List Char} {hs : List (List Char)}
    (hx : x ∈ hs) (hc : c ∈ x) : c ∈ joinCells hs := by
  induction hs with
  | nil => exact absurd hx (List.not_mem_nil x)
  | cons h0 t ih =>
    cases t with
    | nil =>
      rcases List.mem_cons.mp hx with hx | hx
      · subst hx
        exact hc
      · exact absurd hx (List.not_mem_nil x)
    | cons t1 ts =>
      have hj : joinCells (h0 :: t1 :: ts) = h0 ++ ',' :: joinCells (t1 :: ts) := rfl
      rw [hj]
      rcases List.mem_cons.mp hx with hx | hx
      · subst hx
        exact List.mem_append.mpr (Or.inl hc)
      · exact List.mem_append.mpr (Or.inr (List.mem_cons_of_mem ',' (ih hx)))

/-- Helper: globally left-stripping the header line only left-strips
its first cell. -/
theorem cells_after_strip (h0 : List Char) (t : List (List Char))
    (hcells : ∀ cell ∈ h0 :: t, ∀ c ∈ cell, c ≠ ',') :
    splitOnChar ',' ((joinCells (h0 :: t)).dropWhile isPySpace)
      = h0.dropWhile isPySpace :: t := by
  cases t with
  | nil =>
    have hj : joinCells [h0] = h0 := rfl
    rw [hj]
    exact splitOnChar_no_sep ',' _
      (fun c hc => hcells h0 (List.mem_cons_self h0 []) c ((List.dropWhile_sublist _).mem hc))
  | cons t1 ts =>
    have hj : joinCells (h0 :: t1 :: ts) = h0 ++ ',' :: joinCells (t1 :: ts) := rfl
    rw [hj]
    by_cases hall : h0.dropWhile isPySpace = []
    · rw [dropWhile_append_of_all (',' :: joinCells (t1 :: ts))
        (List.dropWhile_eq_nil_iff.mp hall)]
      have hcomma : isPySpace ',' = false := rfl
      rw [List.dropWhile_cons, hcomma]
      simp only [Bool.false_eq_true, if_false]
      have hsplit : splitOnChar ',' (',' :: joinCells (t1 :: ts))
          = [] :: splitOnChar ',' (joinCells (t1 :: ts)) := by
        have h := splitOnChar_append_sep ',' [] (joinCells (t1 :: ts))
          (fun c hc => absurd hc (List.not_mem_nil c))
        simpa using h
      rw [hsplit, splitOnChar_joinCells t1 ts
        (fun cell hcell => hcells cell (List.mem_cons_of_mem h0 hcell)), hall]
    · rw [dropWhile_append_of_ne_nil (',' :: joinCells (t1 :: ts)) hall]
      rw [splitOnChar_append_sep ',' _ _
        (fun c hc => hcells h0 (List.mem_cons_self h0 (t1 :: ts)) c
          ((List.dropWhile_sublist _).mem hc))]
      rw [splitOnChar_joinCells t1 ts
        (fun cell hcell => hcells cell (List.mem_cons_of_mem h0 hcell))]

/-- Helper: the year-column search only looks at stripped cells. -/
theorem find_year_col_congr (i : Nat) (l l' : List (List Char))
    (h : List.Forall₂ (fun a b => pyStrip a = pyStrip b) l l') :
    find_year_col i l = find_year_col i l' := by
  induction h generalizing i with
  | nil => rfl
  | cons hab htail ih =>
    rename_i a b l1 l2
    have hh : isYearHeader a = isYearHeader b := by
      unfold isYearHeader
      rw [hab]
    simp only [find_year_col, hh]
    split
    · rfl
    · exact ih (i + 1)

/-- Helper: extraction depends on the text only through its strip. -/
theorem extract_congr_strip (t1 t2 : List Char) (h : pyStrip t1 = pyStrip t2) :
    extract_years_chars t1 = extract_years_chars t2 := by
  unfold extract_years_chars
  rw [h]

/-- Helper: extraction in terms of an explicit line decomposition. -/
theorem extract_eq_of_lines (text L0 r1 : List Char) (rs : List (List Char))
    (h : splitOnChar '\n' (pyStrip text) = L0 :: r1 :: rs) :
    extract_years_chars text
      = yearsFold ((find_year_col 0 (splitOnChar ',' L0)).getD 2) (r1 :: rs) := by
  unfold extract_years_chars
  rw [h]

/-- Helper: a member of the right list of a `Forall₂` has a related
left partner. -/
theorem forall₂_mem_right {α β : Type} {R : α → β → Prop} {l : List α} {l' : List β}
    (h : List.Forall₂ R l l') {b : β} (hb : b ∈ l') : ∃ a ∈ l, R a b := by
  induction h with
  | nil => exact absurd hb (List.not_mem_nil b)
  | cons hab htail ih =>
    rename_i x y xs ys
    rcases List.mem_cons.mp hb with hb | hb
    · subst hb
      exact ⟨x, List.mem_cons_self x xs, hab⟩
    · obtain ⟨a, ha, hr⟩ := ih hb
      exact ⟨a, List.mem_cons_of_mem x ha, hr⟩

/-- Helper: a member of the left list of a `Forall₂` has a related
right partner. -/
theorem forall₂_mem_left {α β : Type} {R : α → β → Prop} {l : List α} {l' : List β}
    (h : List.Forall₂ R l l') {a : α} (ha : a ∈ l) : ∃ b ∈ l', R a b := by
  induction h with
  | nil => exact absurd ha (List.not_mem_nil a)
  | cons hab htail ih =>
    rename_i x y xs ys
    rcases List.mem_cons.mp ha with ha | ha
    · subst ha
      exact ⟨y, List.mem_cons_self y ys, hab⟩
    · obtain ⟨b, hb, hr⟩ := ih ha
      exact ⟨b, List.mem_cons_of_mem y hb, hr⟩

/-- C9: the extracted year set is unchanged when arbitrary additional
leading or trailing whitespace (any stripped character other than a
newline) is added to each cell of the header row: the temporal column
is matched on stripped, lowercased names, so neither the resolved
column index nor the resulting set moves. -/
theorem c9_header_whitespace_invariant
    (hs hs' : List (List Char)) (d : List Char)
    (hpad : List.Forall₂ (fun h h' => ∃ w1 w2,
        (∀ c ∈ w1, isPySpace c = true ∧ c ≠ '\n')
        ∧ (∀ c ∈ w2, isPySpace c = true ∧ c ≠ '\n')
        ∧ h' = w1 ++ h ++ w2) hs hs')
    (hcells : ∀ h ∈ hs, ∀ c ∈ h, c ≠ ',' ∧ c ≠ '\n')
    (hd : rdropSpace d ≠ []) :
    extract_years_chars (joinCells hs ++ '\n' :: d)
      = extract_years_chars (joinCells hs' ++ '\n' :: d) := by
  have hwcell : ∀ {w : List Char}, (∀ c ∈ w, isPySpace c = true ∧ c ≠ '\n') →
      ∀ c ∈ w, c ≠ ',' ∧ c ≠ '\n' := by
    intro w hw c hc
    refine ⟨?_, (hw c hc).2⟩
    intro heq
    have hsp := (hw c hc).1
    rw [heq] at hsp
    exact absurd hsp (by decide)
  have hdd : rdropSpace ('\n' :: d) = '\n' :: rdropSpace d := by
    have h := rdropSpace_append_of_ne_nil ['\n'] hd
    simpa using h
  cases hpad with
  | nil => rfl
  | cons hpad0 hpadt =>
    rename_i h0 h0' t t'
    obtain ⟨w1, w2, hw1, hw2, hh0'⟩ := hpad0
    have hc0 : ∀ c ∈ h0, c ≠ ',' ∧ c ≠ '\n' := hcells h0 (List.mem_cons_self h0 t)
    have hct : ∀ cell ∈ t, ∀ c ∈ cell, c ≠ ',' ∧ c ≠ '\n' := fun cell hcell =>
      hcells cell (List.mem_cons_of_mem h0 hcell)
    have hc0' : ∀ c ∈ h0', c ≠ ',' ∧ c ≠ '\n' := by
      intro c hc
      rw [hh0', List.append_assoc, List.mem_append] at hc
      rcases hc with hc | hc
      · exact hwcell hw1 c hc
      · rcases List.mem_append.mp hc with hc | hc
        · exact hc0 c hc
        · exact hwcell hw2 c hc
    have hct' : ∀ cell ∈ t', ∀ c ∈ cell, c ≠ ',' ∧ c ≠ '\n' := by
      intro cell hcell c hc
      obtain ⟨a, ha, v1, v2, hv1, hv2, heq⟩ := forall₂_mem_right hpadt hcell
      rw [heq, List.append_assoc, List.mem_append] at hc
      rcases hc with hc | hc
      · exact hwcell hv1 c hc
      · rcases List.mem_append.mp hc with hc | hc
        · exact hct a ha c hc
        · exact hwcell hv2 c hc
    by_cases hall : ∀ c ∈ joinCells (h0 :: t), isPySpace c = true
    · cases t with
      | cons t1 ts =>
        exfalso
        have hcm : ',' ∈ joinCells (h0 :: t1 :: ts) := by
          have hj : joinCells (h0 :: t1 :: ts) = h0 ++ ',' :: joinCells (t1 :: ts) := rfl
          rw [hj]
          exact List.mem_append.mpr (Or.inr (List.mem_cons_self ',' _))
        have hsp := hall ',' hcm
        exact absurd hsp (by decide)
      | nil =>
        cases hpadt
        have hjh0 : joinCells [h0] = h0 := rfl
        have hallh0 : ∀ c ∈ h0, isPySpace c = true := by
          intro c hc
          exact hall c (by rw [hjh0]; exact hc)
        have hallh0' : ∀ c ∈ h0', isPySpace c = true := by
          intro c hc
          rw [hh0', List.append_assoc, List.mem_append] at hc
          rcases hc with hc | hc
          · exact (hw1 c hc).1
          · rcases List.mem_append.mp hc with hc | hc
            · exact hallh0 c hc
            · exact (hw2 c hc).1
        apply extract_congr_strip
        unfold pyStrip
        have h1 : rdropSpace (joinCells [h0] ++ '\n' :: d) = h0 ++ '\n' :: rdropSpace d := by
          rw [hjh0, rdropSpace_append_of_ne_nil h0 (by rw [hdd]; exact List.cons_ne_nil _ _),
            hdd]
        have h1' : rdropSpace (joinCells [h0'] ++ '\n' :: d)
            = h0' ++ '\n' :: rdropSpace d := by
          rw [show joinCells [h0'] = h0' from rfl,
            rdropSpace_append_of_ne_nil h0' (by rw [hdd]; exact List.cons_ne_nil _ _), hdd]
        rw [h1, h1', dropWhile_append_of_all _ hallh0, dropWhile_append_of_all _ hallh0']
    · have hnl : ∀ c ∈ joinCells (h0 :: t), c ≠ '\n' := by
        intro c hc
        rcases mem_joinCells hc with hceq | hex
        · subst hceq
          decide
        · obtain ⟨x, hx, hcx⟩ := hex
          exact (hcells x hx c hcx).2
      have hnl' : ∀ c ∈ joinCells (h0' :: t'), c ≠ '\n' := by
        intro c hc
        rcases mem_joinCells hc with hceq | hex
        · subst hceq
          decide
        · obtain ⟨x, hx, hcx⟩ := hex
          rcases List.mem_cons.mp hx with hx | hx
          · subst hx
            exact (hc0' c hcx).2
          · exact (hct' x hx c hcx).2
      have hne : (joinCells (h0 :: t)).dropWhile isPySpace ≠ [] := by
        intro hnil
        exact hall (List.dropWhile_eq_nil_iff.mp hnil)
      have hne' : (joinCells (h0' :: t')).dropWhile isPySpace ≠ [] := by
        intro hnil
        have hall' := List.dropWhile_eq_nil_iff.mp hnil
        apply hall
        push_neg at hall
        obtain ⟨c, hcmem, hcns⟩ := hall
        exfalso
        apply hcns
        rcases mem_joinCells hcmem with hceq | hex
        · subst hceq
          cases t with
          | nil =>
            have hch0 : (',' : Char) ∈ h0 := hcmem
            exact absurd rfl (hc0 ',' hch0).1
          | cons t1 ts =>
            cases hpt : t' with
            | nil =>
              rw [hpt] at hpadt
              cases hpadt
            | cons t1' ts' =>
              have hcm' : (',' : Char) ∈ joinCells (h0' :: t1' :: ts') := by
                have hj : joinCells (h0' :: t1' :: ts')
                    = h0' ++ ',' :: joinCells (t1' :: ts') := rfl
                rw [hj]
                exact List.mem_append.mpr (Or.inr (List.mem_cons_self ',' _))
              rw [hpt] at hall'
              have hsp := hall' ',' hcm'
              exact absurd hsp (by decide)
        · obtain ⟨x, hx, hcx⟩ := hex
          rcases List.mem_cons.mp hx with hx | hx
          · subst hx
            have hmem' : c ∈ h0' := by
              rw [hh0', List.append_assoc]
              exact List.mem_append.mpr (Or.inr (List.mem_append.mpr (Or.inl hcx)))
            exact hall' c (mem_joinCells_of_mem (List.mem_cons_self h0' t') hmem')
          · obtain ⟨x', hx', v1, v2, hv1, hv2, heq⟩ := forall₂_mem_left hpadt hx
            have hmem' : c ∈ x' := by
              rw [heq, List.append_assoc]
              exact List.mem_append.mpr (Or.inr (List.mem_append.mpr (Or.inl hcx)))
            exact hall' c (mem_joinCells_of_mem (List.mem_cons_of_mem h0' hx') hmem')
      have hsplit : splitOnChar '\n' (pyStrip (joinCells (h0 :: t) ++ '\n' :: d))
          = ((joinCells (h0 :: t)).dropWhile isPySpace)
              :: splitOnChar '\n' (rdropSpace d) := by
        unfold pyStrip
        rw [rdropSpace_append_of_ne_nil _ (by rw [hdd]; exact List.cons_ne_nil _ _), hdd]
        rw [dropWhile_append_of_ne_nil _ hne]
        exact splitOnChar_append_sep '\n' _ _
          (fun c hc => hnl c ((List.dropWhile_sublist _).mem hc))
      have hsplit' : splitOnChar '\n' (pyStrip (joinCells (h0' :: t') ++ '\n' :: d))
          = ((joinCells (h0' :: t')).dropWhile isPySpace)
              :: splitOnChar '\n' (rdropSpace d) := by
        unfold pyStrip
        rw [rdropSpace_append_of_ne_nil _ (by rw [hdd]; exact List.cons_ne_nil _ _), hdd]
        rw [dropWhile_append_of_ne_nil _ hne']
        exact splitOnChar_append_sep '\n' _ _
          (fun c hc => hnl' c ((List.dropWhile_sublist _).mem hc))
      cases hrest : splitOnChar '\n' (rdropSpace d) with
      | nil => exact absurd hrest (splitOnChar_ne_nil '\n' _)
      | cons r1 rs =>
        have hl : splitOnChar '\n' (pyStrip (joinCells (h0 :: t) ++ '\n' :: d))
            = ((joinCells (h0 :: t)).dropWhile isPySpace) :: r1 :: rs := by
          rw [hsplit, hrest]
        have hl' : splitOnChar '\n' (pyStrip (joinCells (h0' :: t') ++ '\n' :: d))
            = ((joinCells (h0' :: t')).dropWhile isPySpace) :: r1 :: rs := by
          rw [hsplit', hrest]
        rw [extract_eq_of_lines _ _ _ _ hl, extract_eq_of_lines _ _ _ _ hl']
        have hcellsA : splitOnChar ',' ((joinCells (h0 :: t)).dropWhile isPySpace)
            = h0.dropWhile isPySpace :: t :=
          cells_after_strip h0 t (fun cell hcell c hc => (hcells cell hcell c hc).1)
        have hcellsA' : splitOnChar ',' ((joinCells (h0' :: t')).dropWhile isPySpace)
            = h0'.dropWhile isPySpace :: t' :=
          cells_after_strip h0' t' (fun cell hcell c hc => by
            rcases List.mem_cons.mp hcell with hm | hm
            · subst hm
              exact (hc0' c hc).1
            · exact (hct' cell hm c hc).1)
        rw [hcellsA, hcellsA']
        have hstrip0 : pyStrip (h0.dropWhile isPySpace) = pyStrip (h0'.dropWhile isPySpace) := by
          rw [pyStrip_dropWhile, pyStrip_dropWhile, hh0',
            pyStrip_pad (fun c hc => (hw1 c hc).1) (fun c hc => (hw2 c hc).1)]
        have hforall : List.Forall₂ (fun a b => pyStrip a = pyStrip b)
            (h0.dropWhile isPySpace :: t) (h0'.dropWhile isPySpace :: t') := by
          refine List.Forall₂.cons hstrip0 ?_
          refine hpadt.imp ?_
          intro a b hab
          obtain ⟨v1, v2, hv1, hv2, heq⟩ := hab
          rw [heq, pyStrip_pad (fun c hc => (hv1 c hc).1) (fun c hc => (hv2 c hc).1)]
        rw [find_year_col_congr 0 _ _ hforall]

/-- C9, witness: padding the header cells `Entity`/`Year` with spaces
does not change the extracted years. -/
theorem c9_witness :
    extract_years_chars (joinCells ["Entity".data, "Year".data] ++ '\n' :: "a,1990".data)
      = extract_years_chars
          (joinCells [" Entity ".data, " Year  ".data] ++ '\n' :: "a,1990".data) :=
  c9_header_whitespace_invariant ["Entity".data, "Year".data]
    [" Entity ".data, " Year  ".data] "a,1990".data
    (List.Forall₂.cons ⟨[' '], [' '], by decide, by decide, rfl⟩
      (List.Forall₂.cons ⟨[' '], [' ', ' '], by decide, by decide, rfl⟩ List.Forall₂.nil))
    (by decide) (by decide)
